import Mathlib

/-!
Verification of the self-reloading daemon core of `proxmox-rest-server`
(`src/daemon.rs`, `src/lib.rs`): token parsing and restoration of file
descriptors, the reload registry, the fork/re-exec handshake protocol,
the daemon orchestrator and the systemd notification client.
-/

deriving instance DecidableEq for Except

namespace Proxmox

/-! ## Decimal token parsing

Models Rust's `str::parse::<u32>` as used in `fd_restore_func`
(`daemon.rs` line 247): an optional leading `+`, then one or more ASCII
digits, value at most `u32::MAX`; anything else is a parse error. -/

def U32_MOD : Nat := 4294967296

def I32_HALF : Nat := 2147483648

def isDecDigit (c : Char) : Bool := 48 ≤ c.toNat && c.toNat ≤ 57

def digitsVal (cs : List Char) : Nat :=
  cs.foldl (fun a c => a * 10 + (c.toNat - 48)) 0

def parseU32Core (cs : List Char) : Option Nat :=
  if cs = [] then none
  else if cs.all isDecDigit then
    if digitsVal cs < U32_MOD then some (digitsVal cs) else none
  else none

def parseU32 (s : String) : Option Nat :=
  match s.data with
  | [] => none
  | c :: rest => if c = '+' then parseU32Core rest else parseU32Core (c :: rest)

/-- The `as RawFd` cast in `fd_restore_func` (`daemon.rs` line 248):
reinterpret a `u32` value as a signed 32-bit `c_int`, wrapping. -/
def u32AsI32 (n : Nat) : Int :=
  if n < I32_HALF then (n : Int) else (n : Int) - (U32_MOD : Int)

/-- Base-10 digits, least significant first, by structural recursion on a
fuel bound (so that concrete instances reduce inside the kernel). -/
def digitsFuel : Nat → Nat → List Nat
  | 0, _ => []
  | fuel + 1, n => if n = 0 then [] else n % 10 :: digitsFuel fuel (n / 10)

def decDigits (n : Nat) : List Nat := digitsFuel n n

/-- Decimal rendering of a file descriptor, modelling Rust's
`RawFd::to_string` in `fd_store_func` (`daemon.rs` line 237). -/
def natDecimalRepr (n : Nat) : String :=
  if n = 0 then "0" else String.mk (((decDigits n).map Nat.digitChar).reverse)

/-! ## The descriptor table

An abstract view of the OS state the daemon's handle juggling touches:
which descriptor numbers are open, which open file description each
refers to, and each one's close-on-exec flag. -/

/-- Per-descriptor OS state: identity of the open file description it
refers to, and the close-on-exec flag. -/
structure FdInfo where
  descr : Nat
  cloexec : Bool
deriving Repr, DecidableEq

/-- The process's descriptor table (only non-negative numbers can be open). -/
abbrev OsState := List (Nat × FdInfo)

inductive OsErr
  | EBADF
deriving Repr, DecidableEq

def lookupFd (st : OsState) (fd : Int) : Option FdInfo :=
  if fd < 0 then none else st.lookup fd.toNat

def updateFd (st : OsState) (fd : Nat) (i : FdInfo) : OsState :=
  st.map fun p => if p.1 = fd then (fd, i) else p

/-- Smallest descriptor number not currently in use. -/
def smallestFree (used : List Nat) : Nat :=
  ((List.range (used.length + 1)).filter (fun n => decide (n ∉ used))).headD 0

/-- Modelled from the spec: `proxmox_sys::fd::fd_change_cloexec` (its source
file is not part of this tree). Per §4.1 and the glossary it sets or clears
the close-on-exec property of an open handle, and fails with an `OSError`
when the handle cannot be adopted (is not an open descriptor). -/
def fd_change_cloexec (st : OsState) (fd : Int) (flag : Bool) : Except OsErr OsState :=
  match lookupFd st fd with
  | none => .error .EBADF
  | some i => .ok (updateFd st fd.toNat { i with cloexec := flag })

/-- Modelled from the spec / POSIX: `fcntl(fd, F_DUPFD_CLOEXEC(0))` as used by
`fd_store_func`: duplicate an open descriptor onto a fresh number referring to
the same open file description, close-on-exec set; `EBADF` if the source is
not open. -/
def dupFdCloexec (st : OsState) (fd : Int) : Except OsErr (OsState × Nat) :=
  match lookupFd st fd with
  | none => .error .EBADF
  | some i =>
    let g := smallestFree (st.map Prod.fst)
    .ok ((g, { descr := i.descr, cloexec := true }) :: st, g)

/-- `fd_store_func` (`daemon.rs` lines 227..233): duplicate the descriptor
with close-on-exec set and capture the duplicate (as `some dup`) in the
returned store closure's state. -/
def fd_store_func (st : OsState) (fd : Int) : Except OsErr (OsState × Option Nat) :=
  match dupFdCloexec st fd with
  | .error e => .error e
  | .ok (st', g) => .ok (st', some g)

inductive CallOutcome (α : Type)
  | panicked
  | errored (e : OsErr)
  | ok (a : α)
deriving Repr, DecidableEq

/-- One invocation of the closure built by `fd_store_func` (`daemon.rs`
lines 234..238): `fd_opt.take().unwrap()` panics when the captured
descriptor was already moved out; otherwise clear close-on-exec and yield
the decimal token. Returns the outcome and the closure's captured state
after the call (always `none`: `take` empties it). -/
def storeFnCall (st : OsState) (fdOpt : Option Nat) :
    CallOutcome (OsState × String) × Option Nat :=
  match fdOpt with
  | none => (.panicked, none)
  | some fd =>
    match fd_change_cloexec st (fd : Int) false with
    | .error e => (.errored e, none)
    | .ok st' => (.ok (st', natDecimalRepr fd), none)

/-- Errors of the daemon core (`anyhow::Error` values, by provenance). -/
inductive DErr
  | parseError (tok : String)
  | osError (e : OsErr)
  | invalidEnv (name : String)
  | ioError
deriving Repr, DecidableEq

/-- `fd_restore_func` (`daemon.rs` lines 242..251): parse the token as `u32`
(failure ↦ the "invalid file descriptor" parse error), cast it `as RawFd`
(wrapping into `i32`), re-establish close-on-exec, adopt the handle. -/
def fd_restore_func (st : OsState) (var : String) : Except DErr (OsState × Int) :=
  match parseU32 var with
  | none => .error (.parseError var)
  | some n =>
    match fd_change_cloexec st (u32AsI32 n) true with
    | .error e => .error (.osError e)
    | .ok st' => .ok (st', u32AsI32 n)

/-- Effect of a successful `exec` on the descriptor table: descriptors with
close-on-exec set are closed, the rest survive into the new image. -/
def execPreserve (st : OsState) : OsState := st.filter fun p => !p.2.cloexec

inductive ListenerKind
  | tcp
  | unix
deriving Repr, DecidableEq

/-- A live tokio `TcpListener` / `UnixListener`, reduced to its kind and its
raw descriptor. -/
structure Listener where
  kind : ListenerKind
  fd : Int
deriving Repr, DecidableEq

/-- `Reloadable::get_store_func` for both listener impls (`daemon.rs`
lines 256..258, 268..270): both delegate to `fd_store_func(self.as_raw_fd())`. -/
def listenerStoreFunc (st : OsState) (l : Listener) : Except OsErr (OsState × Option Nat) :=
  fd_store_func st l.fd

/-- `Reloadable::restore` for both listener impls (`daemon.rs` lines
260..262, 272..274): `fd_restore_func` followed by a `from_std` wrap that
keeps the same handle. -/
def listenerRestore (k : ListenerKind) (st : OsState) (var : String) :
    Except DErr (OsState × Listener) :=
  match fd_restore_func st var with
  | .error e => .error e
  | .ok (st', fd) => .ok (st', ⟨k, fd⟩)

/-- The full reload hand-off for one listener: build the store closure
(`get_store_func`), invoke it once (as `Reloader::pre_exec` does) to obtain
the environment token, cross the `exec` boundary, and restore from the
token in the new process image. -/
def listenerRoundTrip (k : ListenerKind) (st : OsState) (fd : Int) :
    Except DErr (OsState × Listener) :=
  match listenerStoreFunc st ⟨k, fd⟩ with
  | .error e => .error (.osError e)
  | .ok (st1, fdOpt) =>
    match (storeFnCall st1 fdOpt).1 with
    | .panicked => .error .ioError
    | .errored e => .error (.osError e)
    | .ok (st2, tok) => listenerRestore k (execPreserve st2) tok

/-! ## The reload registry (`Reloader`) -/

/-- One registry entry (`daemon.rs` lines 41..44): the environment-variable
name and the store closure, the latter reduced to its captured state (the
duplicated descriptor not yet moved out, or `none`). -/
structure PreExecEntry where
  name : String
  fdOpt : Option Nat
deriving Repr, DecidableEq

/-- Outcome of `std::env::var(name)` (`daemon.rs` line 66): present with a
unicode value, absent, or present but not unicode. -/
inductive EnvVarRead
  | present (s : String)
  | notPresent
  | notUnicode
deriving Repr, DecidableEq

/-- The tail of `Reloader::restore` (`daemon.rs` lines 66..76) after the
restore-or-create result `res` is known: `?`-propagate its error, otherwise
obtain the store closure via `get_store_func` (`?`-propagating) and append
the entry to the registry. -/
def reloaderRestoreTail {T : Type} (entries : List PreExecEntry) (name : String)
    (res : Except DErr T) (storeFnOf : T → Except DErr (Option Nat)) :
    Except DErr (T × List PreExecEntry) :=
  match res with
  | .error e => .error e
  | .ok t =>
    match storeFnOf t with
    | .error e => .error e
    | .ok fdOpt => .ok (t, entries ++ [⟨name, fdOpt⟩])

/-- `Reloader::restore` (`daemon.rs` lines 60..77), generic over the
`Reloadable` type `T`: `restoreFn` is `T::restore`, `createFn` the result of
the single possible `or_create()` invocation, `storeFnOf` is
`T::get_store_func` reduced to the returned closure's captured state. The
second component counts how often the `or_create` factory was invoked. -/
def reloaderRestore {T : Type} (entries : List PreExecEntry) (name : String)
    (envRead : EnvVarRead) (restoreFn : String → Except DErr T)
    (createFn : Except DErr T) (storeFnOf : T → Except DErr (Option Nat)) :
    Except DErr (T × List PreExecEntry) × Nat :=
  match envRead with
  | .present s => (reloaderRestoreTail entries name (restoreFn s) storeFnOf, 0)
  | .notPresent => (reloaderRestoreTail entries name createFn storeFnOf, 1)
  | .notUnicode => (.error (.invalidEnv name), 0)

/-- `std::env::set_var`: overwrite-or-insert a process environment variable. -/
def setEnvVar (env : List (String × String)) (name val : String) :
    List (String × String) :=
  (name, val) :: env.filter fun p => !(p.1 == name)

/-- `Reloader::pre_exec` (`daemon.rs` lines 79..84): invoke every entry's
store closure in insertion order, setting the entry's environment variable
to the produced token; a closure error aborts the loop (`?`). The second
component records how many times each entry's closure was invoked, in
entry order. -/
def pre_exec (st : OsState) (env : List (String × String)) :
    List PreExecEntry → CallOutcome (OsState × List (String × String)) × List Nat
  | [] => (.ok (st, env), [])
  | e :: rest =>
    match (storeFnCall st e.fdOpt).1 with
    | .panicked => (.panicked, 1 :: rest.map fun _ => 0)
    | .errored er => (.errored er, 1 :: rest.map fun _ => 0)
    | .ok (st', tok) =>
      let r := pre_exec st' (setEnvVar env e.name tok) rest
      (r.1, 1 :: r.2)

/-! ## Supervisor notification (`systemd_notify`) -/

/-- The systemd notification states (`daemon.rs` lines 388..394). -/
inductive SystemdNotifyMsg
  | ready
  | reloading
  | stopping
  | status (msg : String)
  | mainPid (pid : Int)
deriving Repr, DecidableEq

/-- The line `systemd_notify` formats for each state (`daemon.rs` lines
398..407). -/
def notifyMessage : SystemdNotifyMsg → String
  | .ready => "READY=1"
  | .reloading => "RELOADING=1"
  | .stopping => "STOPPING=1"
  | .status msg => "STATUS=" ++ msg
  | .mainPid pid => "MAINPID=" ++ toString pid

/-- The failure condition of `CString::new` (`daemon.rs` line 407 `?`):
the bytes contain a NUL. -/
def hasNulByte (s : String) : Bool := s.data.any fun c => c.toNat == 0

inductive NotifyErr
  | nulError
  | osError (errno : Int)
deriving Repr, DecidableEq

/-- `systemd_notify` (`daemon.rs` lines 397..417). `rc` is the return code
the `sd_notify` C call would produce; a negative code is surfaced as an OS
error carrying the negated code (the errno). The `CString::new` failure on
an interior NUL is `?`-propagated before any send. -/
def systemd_notify (state : SystemdNotifyMsg) (rc : Int) : Except NotifyErr Unit :=
  if hasNulByte (notifyMessage state) then .error .nulError
  else if rc < 0 then .error (.osError (-rc)) else .ok ()

/-! ## The re-exec protocol (`Reloader::fork_restart`) -/

/-- Externally visible events of the daemon core, in program order. -/
inductive DaemonEvent
  | pidFileWritten (path : String) (pid : Int)
  | notify (m : SystemdNotifyMsg)
  | notifyBarrier (timeout : Nat)
  | chanWrite (bytes : List Nat)
  | serviceErrorLogged
  | forkRestartCall
  | drainAwaited
deriving Repr, DecidableEq

def U64_MAX : Nat := 18446744073709551615

inductive ForkOutcome
  | parent
  | child
  | failed
deriving Repr, DecidableEq

/-- How the invoking process left `fork_restart`: the parent path returns a
`Result`; the intermediate child generation always `_exit`s. -/
inductive ProcExit
  | returned (r : Except DErr Unit)
  | exited (code : Int)
deriving Repr, DecidableEq

/-- The syscall outcomes one run of `Reloader::fork_restart` can observe.
`notifyOk`, `barrierOk` and `goAheadWriteOk` have no influence beyond a log
line (`daemon.rs` lines 194..206), so no event or result depends on them. -/
structure ForkRestartWorld where
  argsValid : Bool
  socketpairOk : Bool
  forkOutcome : ForkOutcome
  readPid : Option Int
  pidFileWriteOk : Bool
  notifyOk : Bool
  barrierOk : Bool
  goAheadWriteOk : Bool
deriving Repr, DecidableEq

/-- `Reloader::fork_restart` (`daemon.rs` lines 86..215), as the pair of the
invoking process's exit and its trace of externally visible events.
Line map: argv conversion `?` (line 91), `socketpair` `?` (line 95), fork
(line 98); child generation `_exit(-1)` (line 162); fork failure logged and
`Ok` (lines 210..213); parent: PID read failure logged and `Ok` (lines
174..181), `replace_file` `?` (lines 184..192), `MainPid` notification and
barrier with failures only logged (lines 194..201), single go-ahead byte
`[1]` with failure only logged (lines 204..206), `Ok` (line 208). The
grandchild runs in a fresh process, modelled by `grandchildHandshake`. -/
def fork_restart (pid_fn : Option String) (w : ForkRestartWorld) :
    ProcExit × List DaemonEvent :=
  if ¬ w.argsValid then (.returned (.error .ioError), [])
  else if ¬ w.socketpairOk then (.returned (.error .ioError), [])
  else
    match w.forkOutcome with
    | .child => (.exited (-1), [])
    | .failed => (.returned (.ok ()), [])
    | .parent =>
      match w.readPid with
      | none => (.returned (.ok ()), [])
      | some child =>
        match pid_fn with
        | some fn =>
          if w.pidFileWriteOk then
            (.returned (.ok ()),
              [.pidFileWritten fn child, .notify (.mainPid child),
               .notifyBarrier U64_MAX, .chanWrite [1]])
          else (.returned (.error .ioError), [])
        | none =>
          (.returned (.ok ()),
            [.notify (.mainPid child), .notifyBarrier U64_MAX, .chanWrite [1]])

/-- The grandchild's states after handling the go-ahead byte. -/
inductive GrandchildStep
  | exitedEarly
  | protocolViolation
  | proceeded
deriving Repr, DecidableEq

/-- The grandchild's handling of the go-ahead byte (`daemon.rs` lines
116..123): a failed read is a logged fast-exit; on a successful read the
byte is asserted to equal 1 (`assert_eq!`); any other value panics, i.e. is
rejected as a protocol violation. -/
def grandchildHandshake (readByte : Option Nat) : GrandchildStep :=
  match readByte with
  | none => .exitedEarly
  | some b => if b = 1 then .proceeded else .protocolViolation

def isMainPidNotify : DaemonEvent → Bool
  | .notify (.mainPid _) => true
  | _ => false

def isBarrierWait : DaemonEvent → Bool
  | .notifyBarrier _ => true
  | _ => false

def isChanWrite : DaemonEvent → Bool
  | .chanWrite _ => true
  | _ => false

/-! ## The shutdown flag and the orchestrator (`create_daemon`) -/

/-- The external signal component's state: the process-wide shutdown flag
(`lib.rs` lines 112..124) together with the reload-request flag. The reload
flag itself is modelled from the spec (§6, termination-signal source): the
signal-handling module exposing `is_reload_request` is not part of this
tree. -/
structure SignalState where
  shutdownRequested : Bool
  reloadRequested : Bool
deriving Repr, DecidableEq

/-- Initializer of `SHUTDOWN_REQUESTED` (`lib.rs` line 112):
`AtomicBool::new(false)`. -/
def SHUTDOWN_REQUESTED_init : Bool := false

/-- `request_shutdown` (`lib.rs` lines 115..118): store `true`. -/
def request_shutdown (st : SignalState) : SignalState :=
  { st with shutdownRequested := true }

/-- `shutdown_requested` (`lib.rs` lines 122..124): load the flag. -/
def shutdown_requested (st : SignalState) : Bool := st.shutdownRequested

/-- Modelled from the spec (§6): `is_reload_request` reads the external
signal component's flag distinguishing reload from plain shutdown. -/
def is_reload_request (st : SignalState) : Bool := st.reloadRequested

/-- The operations of `lib.rs` that touch the shutdown flag:
`request_shutdown` (the only writer), `shutdown_requested` and
`fail_on_shutdown` (readers). -/
inductive ShutdownOp
  | request
  | query
  | failOnCheck
deriving Repr, DecidableEq

def applyShutdownOp : ShutdownOp → SignalState → SignalState
  | .request, st => request_shutdown st
  | .query, st => st
  | .failOnCheck, st => st

def runShutdownOps (ops : List ShutdownOp) (st : SignalState) : SignalState :=
  ops.foldl (fun s o => applyShutdownOp o s) st

/-- Which future won the `select` race (`daemon.rs` line 339): the wrapped
service body (with the service's own result), or the shutdown future. -/
inductive RaceOutcome
  | serviceFirst (r : Except DErr Unit)
  | signalFirst
deriving Repr, DecidableEq

/-- `create_daemon` (`daemon.rs` lines 310..374): listener acquisition
(lines 320..326) and service construction (line 328) outcomes are inputs
and `?`-propagate; the wrapped service logs its error (lines 330..334); the
race branch (lines 339..347) sets the shutdown flag when the service ended
first, or retains the drain future; the reload branch (lines 351..363)
notifies `Reloading`, barrier-waits, runs `fork_restart` and reports its
error as a `Status`; the retained drain future is awaited (lines 368..370);
the result is `Ok` (line 373). Returns (result, final signal state,
events). -/
def create_daemon (listenerOutcome serviceOutcome : Except DErr Unit)
    (race : RaceOutcome) (sig : SignalState)
    (pid_fn : Option String) (w : ForkRestartWorld) :
    Except DErr Unit × SignalState × List DaemonEvent :=
  match listenerOutcome with
  | .error e => (.error e, sig, [])
  | .ok _ =>
    match serviceOutcome with
    | .error e => (.error e, sig, [])
    | .ok _ =>
      let step5 :=
        match race with
        | .serviceFirst r =>
          let ev := match r with
            | .error _ => [DaemonEvent.serviceErrorLogged]
            | .ok _ => []
          let sig' := if ¬ shutdown_requested sig then request_shutdown sig else sig
          (sig', false, ev)
        | .signalFirst => (sig, true, [])
      let sig1 := step5.1
      let retained := step5.2.1
      let ev1 := step5.2.2
      let ev2 :=
        if is_reload_request sig1 then
          let fr := fork_restart pid_fn w
          let base := [DaemonEvent.notify .reloading, DaemonEvent.notifyBarrier U64_MAX,
            DaemonEvent.forkRestartCall] ++ fr.2
          match fr.1 with
          | .returned (.error _) => base ++ [.notify (.status "error during reload")]
          | _ => base
        else []
      let ev3 := if retained then [DaemonEvent.drainAwaited] else []
      (.ok (), sig1, ev1 ++ ev2 ++ ev3)

/-! ### Parsing lemmas -/

theorem digitChar_isDecDigit {d : Nat} (h : d < 10) :
    isDecDigit (Nat.digitChar d) = true := by
  interval_cases d <;> decide

theorem digitChar_val {d : Nat} (h : d < 10) : (Nat.digitChar d).toNat - 48 = d := by
  interval_cases d <;> decide

theorem digitChar_ne_plus {d : Nat} (h : d < 10) : Nat.digitChar d ≠ '+' := by
  interval_cases d <;> decide

theorem digitsVal_foldl_reverse_map (ds : List Nat) (h : ∀ d ∈ ds, d < 10) (a : Nat) :
    ((ds.map Nat.digitChar).reverse).foldl (fun a c => a * 10 + (c.toNat - 48)) a
      = a * 10 ^ ds.length + Nat.ofDigits 10 ds := by
  induction ds generalizing a with
  | nil => simp [Nat.ofDigits]
  | cons d ds ih =>
    have hd : d < 10 := h d (List.mem_cons_self d ds)
    have hds : ∀ x ∈ ds, x < 10 := fun x hx => h x (List.mem_cons_of_mem d hx)
    have : ((d :: ds).map Nat.digitChar).reverse
        = (ds.map Nat.digitChar).reverse ++ [Nat.digitChar d] := by
      simp
    rw [this, List.foldl_append, ih hds a]
    simp only [List.foldl_cons, List.foldl_nil, Nat.ofDigits_cons, List.length_cons]
    rw [digitChar_val hd]
    ring

theorem digitsVal_reverse_map (ds : List Nat) (h : ∀ d ∈ ds, d < 10) :
    digitsVal ((ds.map Nat.digitChar).reverse) = Nat.ofDigits 10 ds := by
  have := digitsVal_foldl_reverse_map ds h 0
  simpa [digitsVal] using this

theorem digitsFuel_eq_digits {fuel n : Nat} (h : n ≤ fuel) :
    digitsFuel fuel n = Nat.digits 10 n := by
  induction fuel generalizing n with
  | zero =>
    have : n = 0 := Nat.le_zero.mp h
    subst this; simp [digitsFuel]
  | succ fuel ih =>
    by_cases hn : n = 0
    · subst hn; simp [digitsFuel]
    · rw [digitsFuel, if_neg hn,
        Nat.digits_def' (by norm_num : 1 < 10) (Nat.pos_of_ne_zero hn)]
      congr 1
      exact ih (by omega)

theorem decDigits_eq_digits (n : Nat) : decDigits n = Nat.digits 10 n :=
  digitsFuel_eq_digits (Nat.le_refl n)

theorem parseU32_natDecimalRepr {n : Nat} (h : n < U32_MOD) :
    parseU32 (natDecimalRepr n) = some n := by
  rcases Nat.eq_zero_or_pos n with h0 | hpos
  · subst h0; decide
  · have hne : n ≠ 0 := Nat.pos_iff_ne_zero.mp hpos
    have hdig : ∀ d ∈ Nat.digits 10 n, d < 10 := fun d hd =>
      Nat.digits_lt_base (by norm_num) hd
    set l : List Char := ((Nat.digits 10 n).map Nat.digitChar).reverse with hl
    have hnil : Nat.digits 10 n ≠ [] := Nat.digits_ne_nil_iff_ne_zero.mpr hne
    have hlne : l ≠ [] := by
      simp [hl, List.reverse_eq_nil_iff, List.map_eq_nil_iff, hnil]
    have hall : l.all isDecDigit = true := by
      rw [List.all_eq_true]
      intro c hc
      rw [hl, List.mem_reverse, List.mem_map] at hc
      obtain ⟨d, hd, rfl⟩ := hc
      exact digitChar_isDecDigit (hdig d hd)
    have hval : digitsVal l = n := by
      rw [hl, digitsVal_reverse_map _ hdig, Nat.ofDigits_digits]
    have hcore : parseU32Core l = some n := by
      rw [parseU32Core, if_neg hlne, if_pos hall, hval, if_pos h]
    have hrepr : natDecimalRepr n = String.mk l := by
      rw [natDecimalRepr, if_neg hne, decDigits_eq_digits]
    rw [hrepr]
    cases hcons : l with
    | nil => exact absurd hcons hlne
    | cons c rest =>
      have hcmem : c ∈ l := by rw [hcons]; exact List.mem_cons_self c rest
      have hcplus : c ≠ '+' := by
        rw [hl, List.mem_reverse, List.mem_map] at hcmem
        obtain ⟨d, hd, rfl⟩ := hcmem
        exact digitChar_ne_plus (hdig d hd)
      show parseU32 (String.mk (c :: rest)) = some n
      rw [parseU32]
      simp only [if_neg hcplus]
      rw [← hcons, hcore]

/-! ### Descriptor-table lemmas -/

theorem smallestFree_filter_ne_nil (used : List Nat) :
    ((List.range (used.length + 1)).filter (fun n => decide (n ∉ used))) ≠ [] := by
  intro hempty
  have hsub : Finset.range (used.length + 1) ⊆ used.toFinset := by
    intro n hn
    rw [Finset.mem_range] at hn
    by_contra hnu
    rw [List.mem_toFinset] at hnu
    have hmem : n ∈ (List.range (used.length + 1)).filter (fun n => decide (n ∉ used)) := by
      rw [List.mem_filter]
      exact ⟨List.mem_range.mpr hn, by simpa using hnu⟩
    rw [hempty] at hmem
    exact absurd hmem (List.not_mem_nil n)
  have h1 := Finset.card_le_card hsub
  rw [Finset.card_range] at h1
  have h2 := used.toFinset_card_le
  omega

theorem smallestFree_spec (used : List Nat) :
    smallestFree used ∉ used ∧ smallestFree used ≤ used.length := by
  have hne := smallestFree_filter_ne_nil used
  have hmem : smallestFree used ∈
      (List.range (used.length + 1)).filter (fun n => decide (n ∉ used)) := by
    rw [smallestFree]
    cases hc : (List.range (used.length + 1)).filter (fun n => decide (n ∉ used)) with
    | nil => exact absurd hc hne
    | cons a l => simp
  rw [List.mem_filter] at hmem
  refine ⟨by simpa using hmem.2, ?_⟩
  have := List.mem_range.mp hmem.1
  omega

theorem updateFd_of_not_mem {st : OsState} {g : Nat}
    (h : g ∉ st.map Prod.fst) (i : FdInfo) : updateFd st g i = st := by
  induction st with
  | nil => rfl
  | cons p rest ih =>
    simp only [List.map_cons, List.mem_cons, not_or] at h
    have hp : ¬ p.1 = g := fun hgp => h.1 (hgp ▸ rfl)
    calc updateFd (p :: rest) g i
        = (if p.1 = g then (g, i) else p) :: updateFd rest g i := rfl
      _ = p :: rest := by rw [if_neg hp, ih h.2]

theorem updateFd_cons_self {st : OsState} {g : Nat}
    (h : g ∉ st.map Prod.fst) (i j : FdInfo) :
    updateFd ((g, i) :: st) g j = (g, j) :: st := by
  calc updateFd ((g, i) :: st) g j
      = (if g = g then (g, j) else (g, i)) :: updateFd st g j := rfl
    _ = (g, j) :: st := by rw [if_pos rfl, updateFd_of_not_mem h]

theorem lookupFd_cons_self (st : OsState) (g : Nat) (i : FdInfo) :
    lookupFd ((g, i) :: st) (g : Int) = some i := by
  simp [lookupFd, List.lookup]

theorem fd_change_cloexec_cons_self {st : OsState} {g : Nat}
    (h : g ∉ st.map Prod.fst) (i : FdInfo) (flag : Bool) :
    fd_change_cloexec ((g, i) :: st) (g : Int) flag
      = .ok ((g, { i with cloexec := flag }) :: st) := by
  rw [fd_change_cloexec, lookupFd_cons_self]
  show Except.ok (updateFd ((g, i) :: st) (g : Int).toNat { i with cloexec := flag }) = _
  rw [Int.toNat_natCast, updateFd_cons_self h]

theorem not_mem_map_fst_execPreserve {st : OsState} {g : Nat}
    (h : g ∉ st.map Prod.fst) : g ∉ (execPreserve st).map Prod.fst := by
  intro hmem
  have hs : ((execPreserve st).map Prod.fst).Sublist (st.map Prod.fst) :=
    (List.filter_sublist st).map Prod.fst
  exact h (hs.subset hmem)

theorem execPreserve_cons_keep (st : OsState) (g : Nat) (d : Nat) :
    execPreserve ((g, ⟨d, false⟩) :: st) = (g, ⟨d, false⟩) :: execPreserve st := by
  simp [execPreserve, List.filter]

/-- C5: for both supported listener kinds (TCP stream socket and Unix local
socket) in a live state (the listener's descriptor is open), restoring the
token produced by the store closure of `get_store_func` — across the exec
boundary — succeeds and yields a listener of the same kind whose descriptor
refers to the same open file description (the same open listening socket) as
the original, with close-on-exec re-established. -/
theorem listener_token_roundtrip
    (k : ListenerKind) (st : OsState) (fd : Int) (info : FdInfo)
    (hopen : lookupFd st fd = some info)
    (hsize : st.length < I32_HALF) :
    ∃ st' : OsState, ∃ l : Listener,
      listenerRoundTrip k st fd = .ok (st', l) ∧ l.kind = k ∧
      ∃ i' : FdInfo, lookupFd st' l.fd = some i' ∧
        i'.descr = info.descr ∧ i'.cloexec = true := by
  have hspec := smallestFree_spec (st.map Prod.fst)
  set g := smallestFree (st.map Prod.fst) with hg
  obtain ⟨hgnm, hgle⟩ := hspec
  have hglen : g ≤ st.length := by simpa using hgle
  have hglt : g < I32_HALF := lt_of_le_of_lt hglen hsize
  have hgu32 : g < U32_MOD := lt_trans hglt (by norm_num [I32_HALF, U32_MOD])
  have h2 := @fd_change_cloexec_cons_self st g hgnm ⟨info.descr, true⟩ false
  have h4 := @fd_change_cloexec_cons_self (execPreserve st) g
    (not_mem_map_fst_execPreserve hgnm) ⟨info.descr, false⟩ true
  refine ⟨(g, ⟨info.descr, true⟩) :: execPreserve st, ⟨k, (g : Int)⟩, ?_, rfl,
    ⟨info.descr, true⟩, ?_, rfl, rfl⟩
  · simp only [listenerRoundTrip, listenerStoreFunc, fd_store_func, dupFdCloexec, hopen,
      ← hg, storeFnCall, h2, execPreserve_cons_keep, listenerRestore, fd_restore_func,
      parseU32_natDecimalRepr hgu32, u32AsI32, if_pos hglt, h4]
  · exact lookupFd_cons_self _ g _

theorem parseU32Core_lt {cs : List Char} {n : Nat}
    (h : parseU32Core cs = some n) : n < U32_MOD := by
  rw [parseU32Core] at h
  split_ifs at h with h1 h2 h3
  injection h with h; omega

theorem parseU32_lt {s : String} {n : Nat} (h : parseU32 s = some n) : n < U32_MOD := by
  rw [parseU32] at h
  rcases hd : s.data with _ | ⟨c, rest⟩ <;> rw [hd] at h
  · cases h
  · dsimp only at h
    by_cases hc : c = '+'
    · rw [if_pos hc] at h; exact parseU32Core_lt h
    · rw [if_neg hc] at h; exact parseU32Core_lt h

/-- C3 (amended): `fd_restore_func` fails with the parse error exactly for
tokens that do not parse as a `u32` (an optional `+` followed by decimal
digits with value below 2^32); a token whose value lies in [2^31, 2^32) is
accepted by the parser, wraps under the `as RawFd` cast to a negative handle
— never a valid descriptor — and fails with an OS error from the adoption
step instead of a parse error. -/
theorem fd_restore_parse_or_os_error (st : OsState) (var : String) :
    (parseU32 var = none → fd_restore_func st var = .error (.parseError var)) ∧
    (∀ n, parseU32 var = some n → I32_HALF ≤ n →
      fd_restore_func st var = .error (.osError .EBADF)) := by
  constructor
  · intro h
    simp only [fd_restore_func, h]
  · intro n hn hge
    have hlt : n < U32_MOD := parseU32_lt hn
    have hneg : u32AsI32 n < 0 := by
      rw [u32AsI32, if_neg (not_lt.mpr (by exact_mod_cast hge))]
      have hc : (n : Int) < (U32_MOD : Int) := by exact_mod_cast hlt
      omega
    have hlook : lookupFd st (u32AsI32 n) = none := by
      rw [lookupFd, if_pos hneg]
    simp only [fd_restore_func, hn, fd_change_cloexec, hlook]

/-- C3 counterexample: the token `"2147483648"` denotes no valid descriptor
number (valid descriptor numbers are the non-negative `i32` values, all
below 2^31), yet restoration does not fail with a parse error: the token
parses as a `u32`, the `as RawFd` cast wraps it to the negative handle
−2^31, and the adoption step fails with an OS error instead. -/
theorem fd_restore_out_of_range_counterexample :
    parseU32 "2147483648" = some 2147483648 ∧
    u32AsI32 2147483648 = -2147483648 ∧
    fd_restore_func [] "2147483648" = .error (.osError .EBADF) := by
  refine ⟨by decide, by decide, by decide⟩

/-- Witness for C3: a non-numeric token fails with the parse error; the
maximal 32-bit token fails with the OS error. -/
theorem fd_restore_parse_or_os_error_witness :
    fd_restore_func [] "sock" = .error (.parseError "sock") ∧
    fd_restore_func [] "4294967295" = .error (.osError .EBADF) :=
  ⟨(fd_restore_parse_or_os_error [] "sock").1 (by decide),
   (fd_restore_parse_or_os_error [] "4294967295").2 4294967295 (by decide) (by decide)⟩

/-! ### Registry theorems -/

theorem reloaderRestoreTail_ok {T : Type} {entries : List PreExecEntry}
    {name : String} {res : Except DErr T}
    {storeFnOf : T → Except DErr (Option Nat)} {t : T} {es : List PreExecEntry}
    (h : reloaderRestoreTail entries name res storeFnOf = .ok (t, es)) :
    ∃ fdOpt, es = entries ++ [⟨name, fdOpt⟩] := by
  cases res with
  | error e => simp [reloaderRestoreTail] at h
  | ok tv =>
    cases hst : storeFnOf tv with
    | error e => simp [reloaderRestoreTail, hst] at h
    | ok fdOpt =>
      simp only [reloaderRestoreTail, hst, Except.ok.injEq, Prod.mk.injEq] at h
      exact ⟨fdOpt, h.2.symm⟩

/-- C4: `Reloader::restore` never invokes the `or_create` factory when the
environment variable is present (whether its value is unicode or not: the
factory runs only in the variable-absent branch), invokes it exactly once
when the variable is absent, and in every success case appends exactly one
token-producing entry for the given name to the registry. -/
theorem reloader_restore_spec {T : Type} (entries : List PreExecEntry)
    (name : String) (envRead : EnvVarRead) (restoreFn : String → Except DErr T)
    (createFn : Except DErr T) (storeFnOf : T → Except DErr (Option Nat)) :
    (reloaderRestore entries name envRead restoreFn createFn storeFnOf).2
      = (if envRead = EnvVarRead.notPresent then 1 else 0) ∧
    (∀ t es,
      (reloaderRestore entries name envRead restoreFn createFn storeFnOf).1
        = .ok (t, es) → ∃ fdOpt, es = entries ++ [⟨name, fdOpt⟩]) := by
  constructor
  · cases envRead <;> rfl
  · intro t es h
    cases envRead with
    | present s => exact reloaderRestoreTail_ok h
    | notPresent => exact reloaderRestoreTail_ok h
    | notUnicode => simp [reloaderRestore] at h

/-- Witness for C4: with the variable present the factory count is 0 and a
successful restore appends the entry; with it absent the count is 1. -/
theorem reloader_restore_spec_witness :
    (reloaderRestore (T := Nat) [] "PROXMOX_BACKUP_LISTEN_FD"
        (.present "6") (fun _ => .ok 6) (.ok 9) (fun t => .ok (some t))).2 = 0 ∧
    (∃ fdOpt, [(⟨"PROXMOX_BACKUP_LISTEN_FD", some 6⟩ : PreExecEntry)]
        = ([] : List PreExecEntry) ++ [⟨"PROXMOX_BACKUP_LISTEN_FD", fdOpt⟩]) ∧
    (reloaderRestore (T := Nat) [] "PROXMOX_BACKUP_LISTEN_FD"
        .notPresent (fun _ => .ok 6) (.ok 9) (fun t => .ok (some t))).2 = 1 := by
  have h := reloader_restore_spec (T := Nat) [] "PROXMOX_BACKUP_LISTEN_FD"
    (.present "6") (fun _ => .ok 6) (.ok 9) (fun t => .ok (some t))
  have h2 := reloader_restore_spec (T := Nat) [] "PROXMOX_BACKUP_LISTEN_FD"
    .notPresent (fun _ => .ok 6) (.ok 9) (fun t => .ok (some t))
  exact ⟨h.1, h.2 6 [⟨"PROXMOX_BACKUP_LISTEN_FD", some 6⟩] (by decide), h2.1⟩

theorem keys_updateFd (st : OsState) (g : Nat) (i : FdInfo) :
    (updateFd st g i).map Prod.fst = st.map Prod.fst := by
  induction st with
  | nil => rfl
  | cons p rest ih =>
    show (if p.1 = g then (g, i) else p).1 :: (updateFd rest g i).map Prod.fst = _
    by_cases hp : p.1 = g <;> simp [hp, ih]

theorem lookup_isSome_of_mem_keys {st : OsState} {k : Nat}
    (h : k ∈ st.map Prod.fst) : ∃ i, st.lookup k = some i := by
  induction st with
  | nil => simp at h
  | cons p rest ih =>
    by_cases hp : p.1 = k
    · exact ⟨p.2, by simp [List.lookup, hp]⟩
    · have hk : k ∈ rest.map Prod.fst := by
        rcases List.mem_cons.mp h with h1 | h1
        · exact absurd h1.symm hp
        · exact h1
      obtain ⟨i, hi⟩ := ih hk
      refine ⟨i, ?_⟩
      have hbeq : (k == p.1) = false :=
        beq_eq_false_iff_ne.mpr fun hkp => hp hkp.symm
      simp [List.lookup, hbeq, hi]

/-- Under registry use — every entry still holding a duplicated descriptor
that is open in the table — `pre_exec` succeeds, invoking each registered
entry's closure exactly once. -/
theorem pre_exec_registry_use (st : OsState) (env : List (String × String))
    (entries : List PreExecEntry)
    (hlive : ∀ e ∈ entries, ∃ fd, e.fdOpt = some fd ∧ fd ∈ st.map Prod.fst) :
    (∃ o, (pre_exec st env entries).1 = .ok o) ∧
    (∀ c ∈ (pre_exec st env entries).2, c = 1) := by
  induction entries generalizing st env with
  | nil => exact ⟨⟨(st, env), rfl⟩, fun c hc => by simp [pre_exec] at hc⟩
  | cons e rest ih =>
    obtain ⟨fd, hfd, hmem⟩ := hlive e (List.mem_cons_self e rest)
    obtain ⟨i, hi⟩ := lookup_isSome_of_mem_keys hmem
    have hlk : lookupFd st (fd : Int) = some i := by
      rw [lookupFd, if_neg (by exact_mod_cast Int.not_lt.mpr (Int.natCast_nonneg fd))]
      simpa using hi
    have hfc : fd_change_cloexec st (fd : Int) false
        = .ok (updateFd st fd { i with cloexec := false }) := by
      rw [fd_change_cloexec, hlk]
      show Except.ok (updateFd st (Int.toNat (fd : Int)) _) = _
      rw [Int.toNat_natCast]
    have hcall : (storeFnCall st e.fdOpt).1
        = .ok (updateFd st fd { i with cloexec := false }, natDecimalRepr fd) := by
      rw [hfd]
      simp [storeFnCall, hfc]
    have hlive' : ∀ x ∈ rest, ∃ fd', x.fdOpt = some fd' ∧
        fd' ∈ (updateFd st fd { i with cloexec := false }).map Prod.fst := by
      intro x hx
      obtain ⟨fd', hfd', hmem'⟩ := hlive x (List.mem_cons_of_mem e hx)
      exact ⟨fd', hfd', by rw [keys_updateFd]; exact hmem'⟩
    obtain ⟨⟨o, ho⟩, hcounts⟩ := ih (updateFd st fd { i with cloexec := false })
      (setEnvVar env e.name (natDecimalRepr fd)) hlive'
    constructor
    · exact ⟨o, by simp only [pre_exec, hcall]; exact ho⟩
    · intro c hc
      simp only [pre_exec, hcall] at hc
      rcases List.mem_cons.mp hc with rfl | hmem'
      · rfl
      · exact hcounts c hmem'

/-- C10: a store closure produced by `fd_store_func` can be invoked
successfully at most once — after any invocation its captured descriptor is
moved out, and a further invocation of the same closure panics —
`Reloader::pre_exec` invokes each registered entry's closure at most once
in any run, and under registry use (every entry holding a live duplicated
descriptor, as `fd_store_func` established) it invokes each exactly once
and succeeds, so the panic branch is unreachable there. -/
theorem store_closure_single_use :
    (∀ (st : OsState) (fdOpt : Option Nat), (storeFnCall st fdOpt).2 = none) ∧
    (∀ st : OsState, (storeFnCall st none).1 = .panicked) ∧
    (∀ (st : OsState) (fd : Nat), (storeFnCall st (some fd)).1 ≠ .panicked) ∧
    (∀ (st : OsState) (env : List (String × String)) (entries : List PreExecEntry),
      ∀ c ∈ (pre_exec st env entries).2, c ≤ 1) ∧
    (∀ (st : OsState) (env : List (String × String)) (entries : List PreExecEntry),
      (∀ e ∈ entries, ∃ fd, e.fdOpt = some fd ∧ fd ∈ st.map Prod.fst) →
      (∃ o, (pre_exec st env entries).1 = .ok o) ∧
      (∀ c ∈ (pre_exec st env entries).2, c = 1)) ∧
    (∀ (st : OsState) (env : List (String × String)) (entries : List PreExecEntry),
      (∀ e ∈ entries, e.fdOpt ≠ none) →
      (pre_exec st env entries).1 ≠ .panicked) := by
  refine ⟨?_, ?_, ?_, ?_, ?_, ?_⟩
  · intro st fdOpt
    cases fdOpt with
    | none => rfl
    | some fd =>
      cases hfc : fd_change_cloexec st (fd : Int) false <;>
        simp [storeFnCall, hfc]
  · intro st; rfl
  · intro st fd
    cases hfc : fd_change_cloexec st (fd : Int) false <;>
      simp [storeFnCall, hfc]
  · intro st env entries
    induction entries generalizing st env with
    | nil => intro c hc; simp [pre_exec] at hc
    | cons e rest ih =>
      intro c hc
      rcases houtcome : (storeFnCall st e.fdOpt).1 with _ | er | a
      · simp only [pre_exec, houtcome] at hc
        rcases List.mem_cons.mp hc with rfl | hmem
        · exact le_refl 1
        · obtain ⟨x, _, rfl⟩ := List.mem_map.mp hmem
          omega
      · simp only [pre_exec, houtcome] at hc
        rcases List.mem_cons.mp hc with rfl | hmem
        · exact le_refl 1
        · obtain ⟨x, _, rfl⟩ := List.mem_map.mp hmem
          omega
      · obtain ⟨st', tok⟩ := a
        simp only [pre_exec, houtcome] at hc
        rcases List.mem_cons.mp hc with rfl | hmem
        · exact le_refl 1
        · exact ih st' (setEnvVar env e.name tok) c hmem
  · intro st env entries hlive
    exact pre_exec_registry_use st env entries hlive
  · intro st env entries
    induction entries generalizing st env with
    | nil => intro _ h; simp [pre_exec] at h
    | cons e rest ih =>
      intro hlive
      obtain ⟨fd, hfd⟩ : ∃ fd, e.fdOpt = some fd := by
        cases he : e.fdOpt with
        | none => exact absurd he (hlive e (List.mem_cons_self e rest))
        | some fd => exact ⟨fd, rfl⟩
      rcases houtcome : (storeFnCall st e.fdOpt).1 with _ | er | a
      · rw [hfd] at houtcome
        cases hfc : fd_change_cloexec st (fd : Int) false <;>
          simp [storeFnCall, hfc] at houtcome
      · intro h
        simp only [pre_exec, houtcome] at h
        cases h
      · obtain ⟨st', tok⟩ := a
        intro h
        simp only [pre_exec, houtcome] at h
        exact ih st' (setEnvVar env e.name tok)
          (fun x hx => hlive x (List.mem_cons_of_mem e hx)) h

/-- Witness for C10 on a concrete registry: one entry holding a live
duplicated descriptor; `pre_exec` succeeds and invokes its closure exactly
once. -/
theorem store_closure_single_use_witness :
    (∃ o, (pre_exec [(0, ⟨4, true⟩)] [] [⟨"A", some 0⟩]).1 = .ok o) ∧
    ∀ c ∈ (pre_exec [(0, ⟨4, true⟩)] [] [⟨"A", some 0⟩]).2, c = 1 :=
  store_closure_single_use.2.2.2.2.1 [(0, ⟨4, true⟩)] [] [⟨"A", some 0⟩]
    (fun e he => by
      rcases List.mem_cons.mp he with rfl | h
      · exact ⟨0, rfl, by decide⟩
      · simp at h)

/-- Witness for C5 at a concrete table: one open listening descriptor `5`
(description `77`, close-on-exec set), restored across a reload. -/
theorem listener_token_roundtrip_witness :
    lookupFd [(5, ⟨77, true⟩)] 5 = some ⟨77, true⟩ ∧
    ([((5 : Nat), (⟨77, true⟩ : FdInfo))].length < I32_HALF) ∧
    ∃ st' : OsState, ∃ l : Listener,
      listenerRoundTrip ListenerKind.tcp [(5, ⟨77, true⟩)] 5 = .ok (st', l) ∧
      l.kind = ListenerKind.tcp ∧
      ∃ i' : FdInfo, lookupFd st' l.fd = some i' ∧
        i'.descr = (77 : Nat) ∧ i'.cloexec = true :=
  ⟨by decide, by decide,
    listener_token_roundtrip ListenerKind.tcp [(5, ⟨77, true⟩)] 5 ⟨77, true⟩
      (by decide) (by decide)⟩

/-! ### Re-exec protocol theorems -/

/-- C1: for every run of `fork_restart` in which the synchronization channel
closes before the parent has read a full fixed-width PID value (`read_exact`
fails), the call returns `Ok`, no PID file is written and no `MainPid`
supervisor notification is sent (the parent's event trace is empty). -/
theorem fork_restart_read_failure_ok
    (pid_fn : Option String) (w : ForkRestartWorld)
    (hargs : w.argsValid = true) (hsp : w.socketpairOk = true)
    (hfork : w.forkOutcome = .parent) (hread : w.readPid = none) :
    (fork_restart pid_fn w).1 = .returned (.ok ()) ∧
    (∀ fn pid, DaemonEvent.pidFileWritten fn pid ∉ (fork_restart pid_fn w).2) ∧
    (∀ pid, DaemonEvent.notify (.mainPid pid) ∉ (fork_restart pid_fn w).2) := by
  have hfr : fork_restart pid_fn w = (.returned (.ok ()), []) := by
    simp [fork_restart, hargs, hsp, hfork, hread]
  rw [hfr]
  refine ⟨rfl, ?_, ?_⟩
  · intro fn pid h
    simp at h
  · intro pid h
    simp at h

/-- Witness for C1: a concrete run whose PID read fails returns `Ok` with no
`MainPid` notification. -/
theorem fork_restart_read_failure_ok_witness :
    (fork_restart none (ForkRestartWorld.mk true true .parent none true true true true)).1
      = .returned (.ok ()) ∧
    DaemonEvent.notify (.mainPid 1234) ∉
      (fork_restart none (ForkRestartWorld.mk true true .parent none true true true true)).2 := by
  have h := fork_restart_read_failure_ok none
    (ForkRestartWorld.mk true true .parent none true true true true) rfl rfl rfl rfl
  exact ⟨h.1, h.2.2 1234⟩

/-- C2 counterexample: the parent reads PID 1234 successfully and a PID-file
path was supplied, but writing the PID file fails; `replace_file`'s error
propagates (`?`, `daemon.rs` line 191) before any notification, so zero —
not exactly one — `MainPid` notifications are sent and `fork_restart`
returns an error. -/
theorem fork_restart_pidfile_failure_counterexample :
    (ForkRestartWorld.mk true true .parent (some 1234) false true true true).readPid
      = some 1234 ∧
    (fork_restart (some "/run/daemon.pid")
        (ForkRestartWorld.mk true true .parent (some 1234) false true true true)).2.countP
      isMainPidNotify = 0 ∧
    (fork_restart (some "/run/daemon.pid")
        (ForkRestartWorld.mk true true .parent (some 1234) false true true true)).1
      = .returned (.error .ioError) := by
  refine ⟨rfl, by decide, by decide⟩

/-- C2 (amended): when the parent successfully reads a PID and the PID-file
write succeeds whenever a PID-file path was supplied (a failing write
instead propagates an error before any notification — see the
counterexample), the parent sends exactly one `MainPid` notification and
performs exactly one supervisor barrier wait, and both happen strictly
before the single go-ahead byte is written: the trace is a prefix free of
all three event kinds followed by `[MainPid, barrier, chanWrite [1]]`. -/
theorem fork_restart_handoff_order
    (pid_fn : Option String) (w : ForkRestartWorld) (p : Int)
    (hargs : w.argsValid = true) (hsp : w.socketpairOk = true)
    (hfork : w.forkOutcome = .parent) (hread : w.readPid = some p)
    (hwrite : pid_fn = none ∨ w.pidFileWriteOk = true) :
    (fork_restart pid_fn w).1 = .returned (.ok ()) ∧
    ∃ pre, (fork_restart pid_fn w).2
        = pre ++ [.notify (.mainPid p), .notifyBarrier U64_MAX, .chanWrite [1]] ∧
      pre.countP isMainPidNotify = 0 ∧ pre.countP isBarrierWait = 0 ∧
      pre.countP isChanWrite = 0 ∧
      (fork_restart pid_fn w).2.countP isMainPidNotify = 1 ∧
      (fork_restart pid_fn w).2.countP isBarrierWait = 1 ∧
      (fork_restart pid_fn w).2.countP isChanWrite = 1 := by
  rcases pid_fn with _ | fn
  · have hfr : fork_restart none w = (.returned (.ok ()),
        [.notify (.mainPid p), .notifyBarrier U64_MAX, .chanWrite [1]]) := by
      simp [fork_restart, hargs, hsp, hfork, hread]
    rw [hfr]
    refine ⟨rfl, [], rfl, rfl, rfl, rfl, ?_, ?_, ?_⟩ <;>
      simp [List.countP_cons, isMainPidNotify, isBarrierWait, isChanWrite]
  · have hok : w.pidFileWriteOk = true := by
      rcases hwrite with h | h
      · cases h
      · exact h
    have hfr : fork_restart (some fn) w = (.returned (.ok ()),
        [.pidFileWritten fn p, .notify (.mainPid p), .notifyBarrier U64_MAX,
         .chanWrite [1]]) := by
      simp [fork_restart, hargs, hsp, hfork, hread, hok]
    rw [hfr]
    refine ⟨rfl, [.pidFileWritten fn p], rfl, ?_, ?_, ?_, ?_, ?_, ?_⟩ <;>
      simp [List.countP_cons, isMainPidNotify, isBarrierWait, isChanWrite]

/-- Witness for C2: a concrete successful hand-off with a PID file. -/
theorem fork_restart_handoff_order_witness :
    (fork_restart (some "/run/daemon.pid")
        (ForkRestartWorld.mk true true .parent (some 99) true true true true)).1
      = .returned (.ok ()) ∧
    ∃ pre, (fork_restart (some "/run/daemon.pid")
        (ForkRestartWorld.mk true true .parent (some 99) true true true true)).2
        = pre ++ [.notify (.mainPid 99), .notifyBarrier U64_MAX, .chanWrite [1]] ∧
      pre.countP isMainPidNotify = 0 ∧ pre.countP isBarrierWait = 0 ∧
      pre.countP isChanWrite = 0 ∧
      (fork_restart (some "/run/daemon.pid")
        (ForkRestartWorld.mk true true .parent (some 99) true true true true)).2.countP
        isMainPidNotify = 1 ∧
      (fork_restart (some "/run/daemon.pid")
        (ForkRestartWorld.mk true true .parent (some 99) true true true true)).2.countP
        isBarrierWait = 1 ∧
      (fork_restart (some "/run/daemon.pid")
        (ForkRestartWorld.mk true true .parent (some 99) true true true true)).2.countP
        isChanWrite = 1 :=
  fork_restart_handoff_order (some "/run/daemon.pid")
    (ForkRestartWorld.mk true true .parent (some 99) true true true true) 99
    rfl rfl rfl rfl (Or.inr rfl)

/-- C6: in every execution the only bytes the parent ever writes on the
synchronization channel are the single message `[1]`; the grandchild's
handshake assertion accepts the byte 1 and rejects any other byte as a
protocol violation (the `assert_eq!` panics). -/
theorem handshake_byte_always_one :
    (∀ (pid_fn : Option String) (w : ForkRestartWorld) (bs : List Nat),
      DaemonEvent.chanWrite bs ∈ (fork_restart pid_fn w).2 → bs = [1]) ∧
    grandchildHandshake (some 1) = .proceeded ∧
    (∀ b : Nat, b ≠ 1 → grandchildHandshake (some b) = .protocolViolation) := by
  refine ⟨?_, rfl, ?_⟩
  · intro pid_fn w bs hmem
    rcases w with ⟨av, sp, fo, rp, pw, no, bo, go⟩
    rcases pid_fn with _ | fn <;> cases av <;> cases sp <;> cases fo <;>
        rcases rp with _ | p <;> cases pw <;>
      simp_all [fork_restart]
  · intro b hb
    simp [grandchildHandshake, hb]

/-- Witness for C6: the go-ahead message of a concrete successful hand-off
is `[1]`, and the grandchild rejects the byte 7. -/
theorem handshake_byte_always_one_witness :
    ([1] : List Nat) = [1] ∧ grandchildHandshake (some 7) = .protocolViolation :=
  ⟨handshake_byte_always_one.1 none
      (ForkRestartWorld.mk true true .parent (some 5) true true true true) [1]
      (by decide),
   handshake_byte_always_one.2.2 7 (by decide)⟩

/-! ### Orchestrator theorems -/

/-- C7: when listener acquisition and service construction succeed and the
service body completes — normally or with an internal error — before any
termination signal resolves (no reload request is pending), the service's
error is logged and never propagates, the shutdown flag ends up set, no
re-exec is attempted, no drain wait occurs, and `create_daemon` returns
`Ok`. -/
theorem create_daemon_service_completes_first
    (r : Except DErr Unit) (sig : SignalState) (pid_fn : Option String)
    (w : ForkRestartWorld) (hreload : sig.reloadRequested = false) :
    (create_daemon (.ok ()) (.ok ()) (.serviceFirst r) sig pid_fn w).1 = .ok () ∧
    (create_daemon (.ok ()) (.ok ()) (.serviceFirst r) sig pid_fn w).2.1.shutdownRequested
      = true ∧
    DaemonEvent.forkRestartCall ∉
      (create_daemon (.ok ()) (.ok ()) (.serviceFirst r) sig pid_fn w).2.2 ∧
    DaemonEvent.drainAwaited ∉
      (create_daemon (.ok ()) (.ok ()) (.serviceFirst r) sig pid_fn w).2.2 ∧
    (∀ e, r = .error e →
      (create_daemon (.ok ()) (.ok ()) (.serviceFirst r) sig pid_fn w).2.2
        = [DaemonEvent.serviceErrorLogged]) ∧
    (r = .ok () →
      (create_daemon (.ok ()) (.ok ()) (.serviceFirst r) sig pid_fn w).2.2 = []) := by
  cases r with
  | error e =>
    by_cases hs : sig.shutdownRequested <;>
      simp [create_daemon, is_reload_request, shutdown_requested, request_shutdown,
        hreload, hs]
  | ok v =>
    by_cases hs : sig.shutdownRequested <;>
      simp [create_daemon, is_reload_request, shutdown_requested, request_shutdown,
        hreload, hs]

/-- Witness for C7: a concrete run whose service body fails internally
before any signal; the error is only logged and the result is `Ok`. -/
theorem create_daemon_service_completes_first_witness :
    (create_daemon (.ok ()) (.ok ()) (.serviceFirst (.error .ioError)) ⟨false, false⟩
        none (ForkRestartWorld.mk true true .parent none true true true true)).1
      = .ok () ∧
    (create_daemon (.ok ()) (.ok ()) (.serviceFirst (.error .ioError)) ⟨false, false⟩
        none (ForkRestartWorld.mk true true .parent none true true true true)).2.2
      = [DaemonEvent.serviceErrorLogged] := by
  have h := create_daemon_service_completes_first (.error .ioError) ⟨false, false⟩
    none (ForkRestartWorld.mk true true .parent none true true true true) rfl
  exact ⟨h.1, h.2.2.2.2.1 .ioError rfl⟩

/-- C9: the process-wide shutdown flag starts unset; `request_shutdown` —
its only writer — sets it to true; no operation clears it, so after any
`request_shutdown` every later `shutdown_requested` returns true; and
`create_daemon`'s service-completion branch is idempotent: it sets the flag
only when it is not already set (leaving the state untouched otherwise)
while guaranteeing the flag ends up set. -/
theorem shutdown_flag_monotone :
    SHUTDOWN_REQUESTED_init = false ∧
    (∀ st : SignalState, (request_shutdown st).shutdownRequested = true) ∧
    (∀ (op : ShutdownOp) (st : SignalState), st.shutdownRequested = true →
      (applyShutdownOp op st).shutdownRequested = true) ∧
    (∀ (ops : List ShutdownOp) (st : SignalState), st.shutdownRequested = true →
      shutdown_requested (runShutdownOps ops st) = true) ∧
    (∀ (pre post : List ShutdownOp) (st : SignalState),
      shutdown_requested (runShutdownOps post
        (runShutdownOps (pre ++ [ShutdownOp.request]) st)) = true) ∧
    (∀ (r : Except DErr Unit) (sig : SignalState) (pid_fn : Option String)
        (w : ForkRestartWorld),
      (create_daemon (.ok ()) (.ok ()) (.serviceFirst r) sig pid_fn w).2.1.shutdownRequested
        = true ∧
      (sig.shutdownRequested = true →
        (create_daemon (.ok ()) (.ok ()) (.serviceFirst r) sig pid_fn w).2.1 = sig)) := by
  have hops : ∀ (ops : List ShutdownOp) (st : SignalState),
      st.shutdownRequested = true →
      shutdown_requested (runShutdownOps ops st) = true := by
    intro ops
    induction ops with
    | nil => intro st h; exact h
    | cons o ops ih =>
      intro st h
      have hstep : (applyShutdownOp o st).shutdownRequested = true := by
        cases o <;> simp [applyShutdownOp, request_shutdown, h]
      exact ih (applyShutdownOp o st) hstep
  refine ⟨rfl, fun st => rfl, ?_, hops, ?_, ?_⟩
  · intro op st h
    cases op <;> simp [applyShutdownOp, request_shutdown, h]
  · intro pre post st
    have hreq : (runShutdownOps (pre ++ [ShutdownOp.request]) st).shutdownRequested
        = true := by
      rw [runShutdownOps, List.foldl_append]
      rfl
    exact hops post _ hreq
  · intro r sig pid_fn w
    constructor
    · cases r <;> by_cases hs : sig.shutdownRequested <;>
        simp [create_daemon, shutdown_requested, request_shutdown, hs]
    · intro hs
      cases r <;>
        simp [create_daemon, shutdown_requested, request_shutdown, hs]

/-- Witness for C9: a concrete operation trace ending set, and a
`create_daemon` run on an already-set flag leaving the state unchanged. -/
theorem shutdown_flag_monotone_witness :
    shutdown_requested (runShutdownOps [ShutdownOp.failOnCheck]
      (runShutdownOps ([ShutdownOp.query] ++ [ShutdownOp.request]) ⟨false, false⟩))
      = true ∧
    (create_daemon (.ok ()) (.ok ()) (.serviceFirst (.ok ())) ⟨true, false⟩ none
        (ForkRestartWorld.mk true true .parent none true true true true)).2.1
      = ⟨true, false⟩ :=
  ⟨shutdown_flag_monotone.2.2.2.2.1 [ShutdownOp.query] [ShutdownOp.failOnCheck]
      ⟨false, false⟩,
   (shutdown_flag_monotone.2.2.2.2.2 (.ok ()) ⟨true, false⟩ none
      (ForkRestartWorld.mk true true .parent none true true true true)).2 rfl⟩

/-! ### Supervisor notification theorems -/

/-- C8 counterexample: a `Status` text consisting of a NUL byte makes
`CString::new` fail (`daemon.rs` line 407 `?`), so `systemd_notify` returns
an error although the platform send's return code (here 0) is not negative
— refuting "error if and only if the platform send returns a negative
code". -/
theorem systemd_notify_nul_counterexample :
    systemd_notify (.status (String.mk [Char.ofNat 0])) 0 = .error .nulError ∧
    ¬ ((0 : Int) < 0) := by
  refine ⟨by decide, by decide⟩

/-- C8 (amended): `systemd_notify` formats exactly the lines `READY=1`,
`RELOADING=1`, `STOPPING=1`, `STATUS=<text>` and `MAINPID=<decimal pid>`,
and whenever the formatted message contains no NUL byte (which only a
`Status` text can) it returns an error exactly when the platform send
returns a negative code, namely the OS error carrying the errno translation
of the negated return code; a `Status` text containing a NUL byte instead
fails before any send — see the counterexample. -/
theorem systemd_notify_spec (state : SystemdNotifyMsg) (rc : Int) :
    notifyMessage .ready = "READY=1" ∧
    notifyMessage .reloading = "RELOADING=1" ∧
    notifyMessage .stopping = "STOPPING=1" ∧
    (∀ s, notifyMessage (.status s) = "STATUS=" ++ s) ∧
    (∀ p : Int, notifyMessage (.mainPid p) = "MAINPID=" ++ toString p) ∧
    (hasNulByte (notifyMessage state) = false →
      ((systemd_notify state rc = .ok ()) ↔ ¬ rc < 0) ∧
      (rc < 0 → systemd_notify state rc = .error (.osError (-rc)))) := by
  refine ⟨rfl, rfl, rfl, fun s => rfl, fun p => rfl, fun hnul => ⟨?_, ?_⟩⟩
  · rw [systemd_notify, if_neg (by simp [hnul])]
    constructor
    · intro h hlt
      rw [if_pos hlt] at h
      cases h
    · intro h
      rw [if_neg h]
  · intro hlt
    rw [systemd_notify, if_neg (by simp [hnul]), if_pos hlt]

/-- Witness for C8: a `MainPid` notification whose send fails with code
−13 yields the OS error 13. -/
theorem systemd_notify_spec_witness :
    ((systemd_notify (.mainPid 42) (-13) = .ok ()) ↔ ¬ (-13 : Int) < 0) ∧
    systemd_notify (.mainPid 42) (-13) = .error (.osError 13) := by
  have h := (systemd_notify_spec (.mainPid 42) (-13)).2.2.2.2.2 (by decide)
  exact ⟨h.1, by simpa using h.2 (by decide)⟩

end Proxmox
